import Mathlib

/-
  Verification of the pamazons3 synchronization core against its
  natural-language specification.

  Shallow embedding of:
    - management/commands/__init__.py   (S3File, S3UploadWorker: upload_s3,
      delete_s3, run, the gzip key transform, GZIP_CONTENT_TYPES)
    - management/commands/s3-svnsync.py (Command.handle: out-of-sync guard,
      dispatch, end-of-run checkpoint commit; get_s3_svn_revision /
      set_s3_revision; genesis-revision resolution)

  Modelling conventions:
    - Python strings are List Char; timestamps and file sizes are Nat.
    - The remote object store is an association list from keys to a
      last-modified timestamp; the sequence of store calls a worker makes
      (get_key, set_contents_from_string, make_public, delete_key) is
      recorded in an explicit trace.
    - External effects (os.stat, mimetypes.guess_type, the outcome boto
      returns for a write) are supplied by a World record of total
      functions; files are assumed readable, as the source would raise
      otherwise.
    - The multiprocessing queue is modelled per worker as the list of jobs
      that worker pops; exceptions become explicit result constructors.
-/

namespace Pamazons3

abbrev Str := List Char

def str (s : String) : Str := s.data

/-- S3File from management/commands/init: bucket name, key, local filename,
delete flag. -/
structure S3File where
  bucket_name : Str
  file_key : Str
  filename : Str
  delete : Bool
deriving DecidableEq

def S3File.do_delete (f : S3File) : Bool := f.delete

def S3File.do_upload (f : S3File) : Bool := !f.delete

/-- Scans the remainder of a reversed path for a character that is neither a
dot nor a separator, stopping at the first separator; mirrors the
leading-dot check of the CPython splitext implementation. -/
def hasNonDotBeforeSlash : List Char → Bool
  | [] => false
  | c :: cs => if c = '/' then false else if c = '.' then hasNonDotBeforeSlash cs else true

/-- Splits a reversed path at the last extension dot: returns the reversed
extension tail together with the reversed root, or none when the path has
no extension under the CPython rules (no dot after the last separator, or
only leading dots in the basename). -/
def revExtSplit : List Char → Option (List Char × List Char)
  | [] => none
  | c :: cs =>
    if c = '/' then none
    else if c = '.' then
      if hasNonDotBeforeSlash cs then some ([], cs) else none
    else
      match revExtSplit cs with
      | some (e, rest) => some (c :: e, rest)
      | none => none

/-- os.path.splitext for posix paths: returns the pair of root and
extension, the extension carrying its leading dot. -/
def os_path_splitext (p : Str) : Str × Str :=
  match revExtSplit p.reverse with
  | some (e, rest) => (rest.reverse, '.' :: e.reverse)
  | none => (p, [])

/-- The gzip-variant key transform used by both upload_s3 and delete_s3:
split the key at its final extension and insert a gz segment before it
(source: gz_filename, gz_ext = os.path.splitext(key) followed by
joining gz_filename, the gz segment and gz_ext). -/
def gz_file_key (k : Str) : Str :=
  let pair := os_path_splitext k
  pair.1 ++ ('.' :: 'g' :: 'z' :: []) ++ pair.2

/-- Reversed-list form of gz_file_key, used only in proofs. -/
def gzRev (r : List Char) : List Char :=
  match revExtSplit r with
  | some (e, rest) => e ++ '.' :: 'z' :: 'g' :: '.' :: rest
  | none => 'z' :: 'g' :: '.' :: r

/-- GZIP_CONTENT_TYPES whitelist of S3UploadWorker. -/
def GZIP_CONTENT_TYPES : List Str :=
  [str "text/css", str "application/javascript", str "application/x-javascript"]

/-- Membership of an optional guessed content type in the gzip whitelist. -/
def isGzType : Option Str → Bool
  | some ct => decide (ct ∈ GZIP_CONTENT_TYPES)
  | none => false

/-- The subset of HTTP headers the worker manipulates. -/
structure Headers where
  contentType : Option Str
  contentEncoding : Option Str
  expiresSet : Bool
deriving DecidableEq

/-- One call made against the object store, in order. -/
inductive StoreAction where
  | getKey (key : Str)
  | putObject (key : Str) (headers : Headers)
  | makePublic (key : Str)
  | deleteKey (key : Str)
deriving DecidableEq

def isGetKey : StoreAction → Bool
  | .getKey _ => true
  | _ => false

/-- The remote bucket: keys with their last-modified timestamps. -/
abbrev Store := List (Str × Nat)

def storeGet (st : Store) (k : Str) : Option Nat :=
  match st.find? (fun p => decide (p.1 = k)) with
  | some p => some p.2
  | none => none

def storeDelete (st : Store) (k : Str) : Store :=
  st.filter (fun p => decide (p.1 ≠ k))

def storePut (st : Store) (k : Str) (t : Nat) : Store :=
  (k, t) :: storeDelete st k

/-- Outcome the store gives one set_contents_from_string call: success, the
caught boto S3CreateError, or any other exception. -/
inductive PutOutcome where
  | ok
  | s3CreateError
  | otherError
deriving DecidableEq

/-- What the local filesystem and mimetypes report for one filename. -/
structure LocalFile where
  mtime : Nat
  size : Nat
  contentType : Option Str
deriving DecidableEq

/-- External collaborators of a worker. -/
structure World where
  fileOf : Str → LocalFile
  putOutcome : Str → PutOutcome
  serverTime : Nat

/-- The option flags a worker is constructed with. -/
structure WorkerCfg where
  do_gzip : Bool
  do_expires : Bool
  do_force : Bool
  dry_run : Bool
deriving DecidableEq

/-- Mutable per-worker state: the bucket, the call trace, and the three
counters of S3UploadWorker. -/
structure WorkerState where
  store : Store
  trace : List StoreAction
  upload_count : Nat
  skip_count : Nat
  delete_count : Nat
deriving DecidableEq

/-- Result of executing one job: normal return, or an uncaught exception
propagating out of the method (the re-raise branch of upload_s3). -/
inductive StepResult where
  | ok (s : WorkerState)
  | crashed (s : WorkerState)
deriving DecidableEq

def StepResult.state : StepResult → WorkerState
  | .ok s => s
  | .crashed s => s

/-- The try/except/else block of upload_s3 (the two writes, the gzip branch,
and the counter update in the else clause). A caught S3CreateError is
logged and absorbed; any other exception is printed and re-raised. -/
def upload_try (cfg : WorkerCfg) (w : World) (s : WorkerState)
    (file_key : Str) (content_type : Option Str) (file_size : Nat)
    (headers : Headers) : StepResult :=
  if cfg.dry_run then
    .ok { s with upload_count := s.upload_count + 1 }
  else
    let s1 : WorkerState := { s with trace := s.trace ++ [.putObject file_key headers] }
    match w.putOutcome file_key with
    | .s3CreateError => .ok s1
    | .otherError => .crashed s1
    | .ok =>
      let s2 : WorkerState :=
        { s1 with trace := s1.trace ++ [.makePublic file_key],
                  store := storePut s1.store file_key w.serverTime }
      if cfg.do_gzip then
        if 1024 < file_size ∧ isGzType content_type = true then
          let gzHeaders : Headers := { headers with contentEncoding := some (str "gzip") }
          let gzk := gz_file_key file_key
          let s3 : WorkerState := { s2 with trace := s2.trace ++ [.putObject gzk gzHeaders] }
          match w.putOutcome gzk with
          | .s3CreateError => .ok s3
          | .otherError => .crashed s3
          | .ok =>
            let s4 : WorkerState :=
              { s3 with trace := s3.trace ++ [.makePublic gzk],
                        store := storePut s3.store gzk w.serverTime }
            .ok { s4 with upload_count := s4.upload_count + 1 }
        else .ok { s2 with upload_count := s2.upload_count + 1 }
      else .ok { s2 with upload_count := s2.upload_count + 1 }

/-- upload_s3: content-type resolution, the force-gated timestamp skip check
(bucket.get_key followed by comparing the remote last-modified against the
local mtime, skipping only when the local time is strictly earlier), then
the write block. -/
def upload_s3 (cfg : WorkerCfg) (w : World) (s : WorkerState) (f : S3File) : StepResult :=
  let lf := w.fileOf f.filename
  let content_type := lf.contentType
  let headers : Headers :=
    { contentType := content_type, contentEncoding := none, expiresSet := cfg.do_expires }
  if cfg.do_force then
    upload_try cfg w s f.file_key content_type lf.size headers
  else
    let s1 : WorkerState := { s with trace := s.trace ++ [.getKey f.file_key] }
    match storeGet s1.store f.file_key with
    | some lastModified =>
      if lf.mtime < lastModified then
        .ok { s1 with skip_count := s1.skip_count + 1 }
      else upload_try cfg w s1 f.file_key content_type lf.size headers
    | none => upload_try cfg w s1 f.file_key content_type lf.size headers

/-- delete_s3: outside dry-run, delete the primary key, then look up the
gzip-variant key and delete it when present; the delete counter is
incremented unconditionally at the end. -/
def delete_s3 (cfg : WorkerCfg) (s : WorkerState) (f : S3File) : WorkerState :=
  if cfg.dry_run then
    { s with delete_count := s.delete_count + 1 }
  else
    let s1 : WorkerState :=
      { s with store := storeDelete s.store f.file_key,
               trace := s.trace ++ [.deleteKey f.file_key] }
    let gzk := gz_file_key f.file_key
    let s2 : WorkerState := { s1 with trace := s1.trace ++ [.getKey gzk] }
    let s3 : WorkerState :=
      if (storeGet s2.store gzk).isSome then
        { s2 with store := storeDelete s2.store gzk,
                  trace := s2.trace ++ [.deleteKey gzk] }
      else s2
    { s3 with delete_count := s3.delete_count + 1 }

/-- Terminal state of one worker: either the queue segment was drained, or
an uncaught exception ended the loop with the listed jobs unprocessed. -/
inductive RunResult where
  | finished (s : WorkerState)
  | crashed (s : WorkerState) (remaining : List S3File)
deriving DecidableEq

def RunResult.state : RunResult → WorkerState
  | .finished s => s
  | .crashed s _ => s

/-- S3UploadWorker.run: pop jobs in order, routing deletes to delete_s3 and
the rest to upload_s3; an exception escaping upload_s3 terminates the loop
(the run loop guards only the queue pop with a try). -/
def run_worker (cfg : WorkerCfg) (w : World) : WorkerState → List S3File → RunResult
  | s, [] => .finished s
  | s, f :: rest =>
    if f.do_delete then run_worker cfg w (delete_s3 cfg s f) rest
    else
      match upload_s3 cfg w s f with
      | .ok s1 => run_worker cfg w s1 rest
      | .crashed s1 => .crashed s1 rest

/-- pysvn working-copy status kinds relevant to the out-of-sync guard. -/
inductive WcStatusKind where
  | normal
  | modified
  | added
  | conflicted
  | missing
  | unversioned
deriving DecidableEq

structure FileStatus where
  text_status : WcStatusKind
deriving DecidableEq

/-- The out-of-sync scan of Command.handle in s3-svnsync: for each changed
file take the first entry of client.status and flag the file when its text
status is not normal. -/
def out_of_sync_files (statusOf : Str → List FileStatus) (changed_files : List S3File) :
    List (S3File × FileStatus) :=
  changed_files.filterMap (fun f =>
    match statusOf f.filename with
    | [] => none
    | fs :: _ => if fs.text_status = .normal then none else some (f, fs))

/-- The force flag the svn-sync command passes positionally to every worker
(the literal True in its process_args tuple). -/
def svnsync_force : Bool := true

/-- Outcome of the pre-dispatch phase of Command.handle: abort with the
offending list and exit code 1, clean exit 0 on an empty change set, or
dispatch of the whole change set to the worker pool. -/
inductive DispatchOutcome where
  | abort_out_of_sync (offending : List (S3File × FileStatus))
  | no_changes
  | dispatched (queue : List S3File) (do_force : Bool)
deriving DecidableEq

/-- The guard-then-dispatch sequence of Command.handle: exit 1 on any
out-of-sync file, exit 0 on no changes, otherwise enqueue every changed
file and start the workers with force set. -/
def dispatch (statusOf : Str → List FileStatus) (changed_files : List S3File) :
    DispatchOutcome :=
  let oos := out_of_sync_files statusOf changed_files
  if oos = [] then
    (if changed_files = [] then .no_changes else .dispatched changed_files svnsync_force)
  else .abort_out_of_sync oos

def DispatchOutcome.exit_code : DispatchOutcome → Option Nat
  | .abort_out_of_sync _ => some 1
  | .no_changes => some 0
  | .dispatched _ _ => none

def DispatchOutcome.queued_jobs : DispatchOutcome → List S3File
  | .dispatched q _ => q
  | _ => []

def DispatchOutcome.workers_spawned : DispatchOutcome → Nat → Nat
  | .dispatched _ _, processes_count => processes_count
  | _, _ => 0

/-- INITIAL_REVISION sentinel of s3-svnsync. -/
def INITIAL_REVISION : Int := -1

/-- The persisted svn_revision.yaml document. -/
structure SvnRevisionConf where
  url : Str
  uuid : Option Str
  revision : Int
  last_update : Option Nat
deriving DecidableEq

/-- The default checkpoint get_s3_svn_revision starts from. -/
def default_s3_revision : SvnRevisionConf :=
  { url := [], uuid := none, revision := INITIAL_REVISION, last_update := none }

/-- set_s3_revision: the write of the yaml document, suppressed under
dry-run; returns the list of writes performed to the config key. -/
def set_s3_revision (dryrun : Bool) (conf : SvnRevisionConf) : List SvnRevisionConf :=
  if dryrun then [] else [conf]

/-- The content of the remote config key after a sequence of writes. -/
def apply_writes (stored : Option SvnRevisionConf) (writes : List SvnRevisionConf) :
    Option SvnRevisionConf :=
  writes.foldl (fun _ c => some c) stored

/-- The end-of-run phase of Command.handle: sum the absolute worker exit
codes; on zero, stamp the checkpoint with the local revision captured at
diff time and the current time and persist it via set_s3_revision; on a
nonzero sum, call sys.exit with that sum and write nothing. Returns the
writes performed and the exit code passed to sys.exit (none on normal
completion). -/
def finish_run (dryrun : Bool) (exitcodes : List Int) (conf : SvnRevisionConf)
    (localRev : Int) (now : Nat) : List SvnRevisionConf × Option Nat :=
  let process_result : Nat := (exitcodes.map Int.natAbs).sum
  if process_result = 0 then
    (set_s3_revision dryrun { conf with revision := localRev, last_update := some now }, none)
  else
    ([], some process_result)

/-- One entry of client.log for the local repository. -/
structure LogEntry where
  revision : Int
deriving DecidableEq

/-- The genesis branch of Command.handle: when the checkpoint revision is
the INITIAL_REVISION sentinel, replace it with the revision of the last
entry of the svn log (history with the newest entry first); none models
the IndexError the source would raise on an empty history. -/
def resolve_from_revision (ckpt_rev : Int) (history : List LogEntry) : Option Int :=
  if ckpt_rev = INITIAL_REVISION then (history.getLast?).map (fun e => e.revision)
  else some ckpt_rev

/-- The revision pair handed to client.diff_summarize: the resolved from
revision and the current local revision. -/
def diff_range (ckpt_rev : Int) (history : List LogEntry) (current_rev : Int) :
    Option (Int × Int) :=
  (resolve_from_revision ckpt_rev history).map (fun r => (r, current_rev))

/-! Structural facts about the splitext-based gzip key transform. -/

theorem revExtSplit_eq : ∀ (r e rest : List Char),
    revExtSplit r = some (e, rest) → r = e ++ '.' :: rest ∧ '.' ∉ e := by
  intro r
  induction r with
  | nil => intro e rest h; simp [revExtSplit] at h
  | cons c cs ih =>
    intro e rest h
    by_cases hc : c = '/'
    · simp [revExtSplit, hc] at h
    · by_cases hd : c = '.'
      · subst hd
        by_cases hn : hasNonDotBeforeSlash cs = true
        · simp [revExtSplit, hc, hn] at h
          obtain ⟨he, hr⟩ := h
          subst he; subst hr
          simp
        · simp [revExtSplit, hc, hn] at h
      · rw [revExtSplit.eq_def] at h
        simp only [if_neg hc, if_neg hd] at h
        cases hcs : revExtSplit cs with
        | none => rw [hcs] at h; simp at h
        | some p =>
          obtain ⟨e1, rest1⟩ := p
          rw [hcs] at h
          simp only [Option.some.injEq, Prod.mk.injEq] at h
          obtain ⟨he, hr⟩ := h
          obtain ⟨hcs1, hcs2⟩ := ih e1 rest1 hcs
          subst hr
          constructor
          · rw [← he]; simp [hcs1]
          · rw [← he]
            intro hmem
            rcases List.mem_cons.mp hmem with h1 | h1
            · exact hd h1.symm
            · exact hcs2 h1

theorem dot_append_inj : ∀ (e1 t1 e2 t2 : List Char),
    '.' ∉ e1 → '.' ∉ e2 → e1 ++ '.' :: t1 = e2 ++ '.' :: t2 → e1 = e2 ∧ t1 = t2 := by
  intro e1
  induction e1 with
  | nil =>
    intro t1 e2 t2 _ h2 h
    cases e2 with
    | nil => simpa using h
    | cons d e2t =>
      simp only [List.nil_append, List.cons_append, List.cons.injEq] at h
      exact absurd (h.1 ▸ List.mem_cons_self d e2t) h2
  | cons c e1t ih =>
    intro t1 e2 t2 h1 h2 h
    cases e2 with
    | nil =>
      simp only [List.cons_append, List.nil_append, List.cons.injEq] at h
      exact absurd (h.1 ▸ List.mem_cons_self c e1t) h1
    | cons d e2t =>
      simp only [List.cons_append, List.cons.injEq] at h
      obtain ⟨hcd, h3⟩ := h
      obtain ⟨he, ht⟩ := ih t1 e2t t2
        (fun hm => h1 (List.mem_cons_of_mem _ hm))
        (fun hm => h2 (List.mem_cons_of_mem _ hm)) h3
      subst hcd
      exact ⟨by rw [he], ht⟩

theorem gz_file_key_reverse (k : Str) : (gz_file_key k).reverse = gzRev k.reverse := by
  unfold gz_file_key gzRev os_path_splitext
  cases h : revExtSplit k.reverse with
  | none => simp [List.reverse_append]
  | some p =>
    obtain ⟨e, rest⟩ := p
    simp [List.reverse_append]

theorem gzRev_mixed (r1 r2 e1 rest1 : List Char)
    (h1 : revExtSplit r1 = some (e1, rest1)) (h2 : revExtSplit r2 = none)
    (h : e1 ++ '.' :: 'z' :: 'g' :: '.' :: rest1 = 'z' :: 'g' :: '.' :: r2) : False := by
  obtain ⟨hr1, hdot⟩ := revExtSplit_eq r1 e1 rest1 h1
  match e1, hdot, h with
  | [], _, h =>
    injection h with hh _
    exact absurd hh (by decide)
  | [a], _, h =>
    injection h with _ hh
    injection hh with hh2 _
    exact absurd hh2 (by decide)
  | [a, b], hdot, h =>
    injection h with ha hh
    injection hh with hb hh2
    injection hh2 with _ hh3
    have hr2 : r2 = 'z' :: 'g' :: '.' :: rest1 := hh3.symm
    have heq : r1 = r2 := by
      rw [hr1, hr2, ha, hb]
      rfl
    rw [heq, h2] at h1
    exact Option.noConfusion h1
  | a :: b :: c :: es, hdot, h =>
    injection h with _ hh
    injection hh with _ hh2
    injection hh2 with hc _
    exact hdot (by rw [← hc]; simp)

theorem gzRev_inj (r1 r2 : List Char) (h : gzRev r1 = gzRev r2) : r1 = r2 := by
  unfold gzRev at h
  cases h1 : revExtSplit r1 with
  | none =>
    cases h2 : revExtSplit r2 with
    | none =>
      rw [h1, h2] at h
      simpa using h
    | some p2 =>
      obtain ⟨e2, rest2⟩ := p2
      rw [h1, h2] at h
      exact (gzRev_mixed r2 r1 e2 rest2 h2 h1 h.symm).elim
  | some p1 =>
    obtain ⟨e1, rest1⟩ := p1
    cases h2 : revExtSplit r2 with
    | none =>
      rw [h1, h2] at h
      exact (gzRev_mixed r1 r2 e1 rest1 h1 h2 h).elim
    | some p2 =>
      obtain ⟨e2, rest2⟩ := p2
      rw [h1, h2] at h
      obtain ⟨hr1, hd1⟩ := revExtSplit_eq r1 e1 rest1 h1
      obtain ⟨hr2, hd2⟩ := revExtSplit_eq r2 e2 rest2 h2
      obtain ⟨he, ht⟩ := dot_append_inj e1 _ e2 _ hd1 hd2 h
      injection ht with _ ht1
      injection ht1 with _ ht2
      injection ht2 with _ ht3
      rw [hr1, hr2, he, ht3]

theorem gz_file_key_inj (k1 k2 : Str) (h : gz_file_key k1 = gz_file_key k2) : k1 = k2 := by
  have hrev : gzRev k1.reverse = gzRev k2.reverse := by
    rw [← gz_file_key_reverse, ← gz_file_key_reverse, h]
  have := gzRev_inj k1.reverse k2.reverse hrev
  have h2 : k1.reverse.reverse = k2.reverse.reverse := by rw [this]
  simpa using h2

/-- C8 counterexample: the claim also asserts that no primary key ever equals
the transformed key of a different primary key; but the primary key
app.gz.js is exactly the gzip-variant key the transform produces for the
distinct primary key app.js, so two legitimate keys of one run can
collide in that sense. -/
theorem c8_collision_counterexample :
    gz_file_key (str "app.js") = str "app.gz.js" ∧ str "app.js" ≠ str "app.gz.js" :=
  ⟨by decide, by decide⟩

/-- C8 (amended): the gzip-variant key transform is injective, so any two
distinct primary keys receive distinct transformed keys; however a primary
key may coincide with the transformed key of a different primary key. -/
theorem c8_transform_injective (k1 k2 : Str) (h : k1 ≠ k2) :
    gz_file_key k1 ≠ gz_file_key k2 :=
  fun hgz => h (gz_file_key_inj k1 k2 hgz)

/-- C8 witness: the amended theorem applied to two concrete distinct keys. -/
theorem c8_transform_injective_witness :
    gz_file_key (str "a.js") ≠ gz_file_key (str "b.js") :=
  c8_transform_injective (str "a.js") (str "b.js") (by decide)

/-! Store lemmas. -/

theorem storeGet_cons (p : Str × Nat) (t : Store) (k : Str) :
    storeGet (p :: t) k = if p.1 = k then some p.2 else storeGet t k := by
  by_cases h : p.1 = k <;> simp [storeGet, List.find?_cons, h]

theorem storeDelete_cons (p : Str × Nat) (t : Store) (k : Str) :
    storeDelete (p :: t) k = if p.1 = k then storeDelete t k else p :: storeDelete t k := by
  by_cases h : p.1 = k <;> simp [storeDelete, List.filter_cons, h]

theorem storeGet_storeDelete (st : Store) (k kd : Str) :
    storeGet (storeDelete st kd) k = if k = kd then none else storeGet st k := by
  induction st with
  | nil => simp [storeGet, storeDelete]
  | cons p t ih =>
    rw [storeDelete_cons]
    by_cases hpd : p.1 = kd
    · by_cases hkd : k = kd
      · rw [if_pos hpd, ih, if_pos hkd, if_pos hkd]
      · have hpk : ¬p.1 = k := fun h => hkd (h.symm.trans hpd)
        rw [if_pos hpd, ih, if_neg hkd, if_neg hkd, storeGet_cons, if_neg hpk]
    · rw [if_neg hpd, storeGet_cons, ih, storeGet_cons]
      by_cases hpk : p.1 = k
      · have hkd : ¬k = kd := fun h => hpd (hpk.trans h)
        rw [if_pos hpk, if_neg hkd, if_pos hpk]
      · rw [if_neg hpk, if_neg hpk]

/-! Branch-insensitive facts about the upload write block. -/

theorem upload_try_skip_count (cfg : WorkerCfg) (w : World) (s : WorkerState)
    (fk : Str) (ct : Option Str) (n : Nat) (hd : Headers) :
    (upload_try cfg w s fk ct n hd).state.skip_count = s.skip_count := by
  simp only [upload_try]
  repeat' split
  all_goals rfl

theorem upload_try_delete_count (cfg : WorkerCfg) (w : World) (s : WorkerState)
    (fk : Str) (ct : Option Str) (n : Nat) (hd : Headers) :
    (upload_try cfg w s fk ct n hd).state.delete_count = s.delete_count := by
  simp only [upload_try]
  repeat' split
  all_goals rfl

theorem upload_try_no_getKey (cfg : WorkerCfg) (w : World) (s : WorkerState)
    (fk : Str) (ct : Option Str) (n : Nat) (hd : Headers) (k : Str)
    (h : StoreAction.getKey k ∈ (upload_try cfg w s fk ct n hd).state.trace) :
    StoreAction.getKey k ∈ s.trace := by
  simp only [upload_try] at h
  repeat' split at h
  all_goals simp_all [StepResult.state]

theorem upload_try_put_mem (cfg : WorkerCfg) (w : World) (s : WorkerState)
    (fk : Str) (ct : Option Str) (n : Nat) (hd : Headers)
    (hdry : cfg.dry_run = false) :
    StoreAction.putObject fk hd ∈ (upload_try cfg w s fk ct n hd).state.trace := by
  simp only [upload_try, hdry, Bool.false_eq_true, if_false]
  repeat' split
  all_goals simp [StepResult.state]

theorem upload_try_s3error (cfg : WorkerCfg) (w : World) (s : WorkerState)
    (fk : Str) (ct : Option Str) (n : Nat) (hd : Headers)
    (hdry : cfg.dry_run = false) (hput : w.putOutcome fk = .s3CreateError) :
    upload_try cfg w s fk ct n hd = .ok { s with trace := s.trace ++ [.putObject fk hd] } := by
  simp [upload_try, hdry, hput]

theorem upload_try_gz_s3error (cfg : WorkerCfg) (w : World) (s : WorkerState)
    (fk : Str) (ct : Option Str) (n : Nat) (hd : Headers)
    (hdry : cfg.dry_run = false) (hgzip : cfg.do_gzip = true)
    (hput : w.putOutcome fk = .ok) (hn : 1024 < n) (hct : isGzType ct = true)
    (hgz : w.putOutcome (gz_file_key fk) = .s3CreateError) :
    upload_try cfg w s fk ct n hd =
      .ok { s with store := storePut s.store fk w.serverTime,
                   trace := s.trace ++
                     [.putObject fk hd, .makePublic fk,
                      .putObject (gz_file_key fk) { hd with contentEncoding := some (str "gzip") }] } := by
  simp [upload_try, hdry, hgzip, hput, hn, hct, hgz]

theorem upload_try_dry (cfg : WorkerCfg) (w : World) (s : WorkerState)
    (fk : Str) (ct : Option Str) (n : Nat) (hd : Headers)
    (hdry : cfg.dry_run = true) :
    upload_try cfg w s fk ct n hd = .ok { s with upload_count := s.upload_count + 1 } := by
  simp [upload_try, hdry]

/-! Facts about upload_s3. -/

theorem upload_s3_force (cfg : WorkerCfg) (w : World) (s : WorkerState) (f : S3File)
    (hf : cfg.do_force = true) :
    upload_s3 cfg w s f =
      upload_try cfg w s f.file_key (w.fileOf f.filename).contentType
        (w.fileOf f.filename).size
        ⟨(w.fileOf f.filename).contentType, none, cfg.do_expires⟩ := by
  simp [upload_s3, hf]

theorem upload_s3_skip_count_force (cfg : WorkerCfg) (w : World) (s : WorkerState) (f : S3File)
    (hf : cfg.do_force = true) :
    (upload_s3 cfg w s f).state.skip_count = s.skip_count := by
  rw [upload_s3_force cfg w s f hf]
  exact upload_try_skip_count cfg w s f.file_key _ _ _

theorem delete_s3_skip_count (cfg : WorkerCfg) (s : WorkerState) (f : S3File) :
    (delete_s3 cfg s f).skip_count = s.skip_count := by
  simp only [delete_s3]
  repeat' split
  all_goals rfl

theorem delete_s3_dry (cfg : WorkerCfg) (s : WorkerState) (f : S3File)
    (hdry : cfg.dry_run = true) :
    delete_s3 cfg s f = { s with delete_count := s.delete_count + 1 } := by
  simp [delete_s3, hdry]

theorem upload_s3_dry (cfg : WorkerCfg) (w : World) (s : WorkerState) (f : S3File)
    (hdry : cfg.dry_run = true) :
    ∃ s1, upload_s3 cfg w s f = .ok s1 ∧ s1.store = s.store ∧
      (s1.trace = s.trace ∨ s1.trace = s.trace ++ [.getKey f.file_key]) := by
  unfold upload_s3
  by_cases hf : cfg.do_force = true
  · rw [if_pos hf, upload_try_dry cfg w s _ _ _ _ hdry]
    exact ⟨_, rfl, rfl, Or.inl rfl⟩
  · rw [if_neg hf]
    cases hget : storeGet s.store f.file_key with
    | some t =>
      simp only [hget]
      by_cases hlt : (w.fileOf f.filename).mtime < t
      · rw [if_pos hlt]
        exact ⟨_, rfl, rfl, Or.inr rfl⟩
      · rw [if_neg hlt, upload_try_dry cfg w _ _ _ _ _ hdry]
        exact ⟨_, rfl, rfl, Or.inr rfl⟩
    | none =>
      simp only [hget]
      rw [upload_try_dry cfg w _ _ _ _ _ hdry]
      exact ⟨_, rfl, rfl, Or.inr rfl⟩

/-! Facts about the run loop. -/

theorem run_worker_nil (cfg : WorkerCfg) (w : World) (s : WorkerState) :
    run_worker cfg w s [] = .finished s := rfl

theorem run_worker_cons_delete (cfg : WorkerCfg) (w : World) (s : WorkerState)
    (f : S3File) (rest : List S3File) (hdel : f.do_delete = true) :
    run_worker cfg w s (f :: rest) = run_worker cfg w (delete_s3 cfg s f) rest := by
  rw [run_worker, if_pos hdel]

theorem run_worker_cons_upload (cfg : WorkerCfg) (w : World) (s : WorkerState)
    (f : S3File) (rest : List S3File) (hdel : f.do_delete = false) :
    run_worker cfg w s (f :: rest) =
      match upload_s3 cfg w s f with
      | .ok s1 => run_worker cfg w s1 rest
      | .crashed s1 => .crashed s1 rest := by
  rw [run_worker, if_neg (by simp [hdel])]

theorem run_worker_skip_count (cfg : WorkerCfg) (w : World) (hf : cfg.do_force = true) :
    ∀ (jobs : List S3File) (s : WorkerState),
      (run_worker cfg w s jobs).state.skip_count = s.skip_count := by
  intro jobs
  induction jobs with
  | nil => intro s; rfl
  | cons f rest ih =>
    intro s
    by_cases hdel : f.do_delete = true
    · rw [run_worker_cons_delete cfg w s f rest hdel, ih, delete_s3_skip_count]
    · rw [run_worker_cons_upload cfg w s f rest (by simpa using hdel)]
      cases hres : upload_s3 cfg w s f with
      | ok s1 =>
        have hs1 : s1.skip_count = s.skip_count := by
          have hh := upload_s3_skip_count_force cfg w s f hf
          rw [hres] at hh
          exact hh
        simp only [ih s1, hs1]
      | crashed s1 =>
        have hh := upload_s3_skip_count_force cfg w s f hf
        rw [hres] at hh
        exact hh

theorem run_worker_dry (cfg : WorkerCfg) (w : World) (hdry : cfg.dry_run = true) :
    ∀ (jobs : List S3File) (s : WorkerState),
      (run_worker cfg w s jobs).state.store = s.store ∧
      ∀ a ∈ (run_worker cfg w s jobs).state.trace, isGetKey a = true ∨ a ∈ s.trace := by
  intro jobs
  induction jobs with
  | nil => intro s; exact ⟨rfl, fun a ha => Or.inr ha⟩
  | cons f rest ih =>
    intro s
    by_cases hdel : f.do_delete = true
    · rw [run_worker_cons_delete cfg w s f rest hdel, delete_s3_dry cfg s f hdry]
      obtain ⟨h1, h2⟩ := ih { s with delete_count := s.delete_count + 1 }
      exact ⟨h1, h2⟩
    · rw [run_worker_cons_upload cfg w s f rest (by simpa using hdel)]
      obtain ⟨s1, hup, hst, htr⟩ := upload_s3_dry cfg w s f hdry
      rw [hup]
      obtain ⟨h1, h2⟩ := ih s1
      refine ⟨h1.trans hst, fun a ha => ?_⟩
      rcases h2 a ha with hg | hmem
      · exact Or.inl hg
      · rcases htr with he | he
        · exact Or.inr (he ▸ hmem)
        · rw [he] at hmem
          rcases List.mem_append.mp hmem with hm | hm
          · exact Or.inr hm
          · simp only [List.mem_singleton] at hm
            subst hm
            exact Or.inl rfl

/-- C3 counterexample: with force unset, a remote object whose last-modified
timestamp equals the local modification time (both 5) is NOT skipped: the
claim requires a skip on greater-or-equal, but upload_s3 skips only when
the local time is strictly earlier, so here the skip counter stays 0 and a
write is sent to the store. -/
theorem c3_equal_timestamp_counterexample :
    (upload_s3 ⟨false, false, false, false⟩
        ⟨fun _ => ⟨5, 10, none⟩, fun _ => .ok, 99⟩
        ⟨[(str "k", 5)], [], 0, 0, 0⟩ ⟨str "b", str "k", str "p", false⟩).state.skip_count = 0 ∧
    (upload_s3 ⟨false, false, false, false⟩
        ⟨fun _ => ⟨5, 10, none⟩, fun _ => .ok, 99⟩
        ⟨[(str "k", 5)], [], 0, 0, 0⟩ ⟨str "b", str "k", str "p", false⟩).state.trace =
      [.getKey (str "k"), .putObject (str "k") ⟨none, none, false⟩, .makePublic (str "k")] :=
  ⟨by decide, by decide⟩

/-- C3 (amended): for every Upload job executed with force unset, if the
remote object exists and its last-modified timestamp is strictly greater
than the local file's modification time, the upload is skipped: the only
store access is the metadata read, no write is sent, and the worker's skip
counter is incremented by one. -/
theorem c3_skip_amended (cfg : WorkerCfg) (w : World) (s : WorkerState) (f : S3File) (t : Nat)
    (hf : cfg.do_force = false)
    (hget : storeGet s.store f.file_key = some t)
    (hlt : (w.fileOf f.filename).mtime < t) :
    upload_s3 cfg w s f =
      .ok { s with trace := s.trace ++ [.getKey f.file_key],
                   skip_count := s.skip_count + 1 } := by
  simp [upload_s3, hf, hget, hlt]

/-- C3 witness: the amended skip theorem at a concrete store and file. -/
theorem c3_skip_amended_witness :
    upload_s3 ⟨false, false, false, false⟩ ⟨fun _ => ⟨3, 10, none⟩, fun _ => .ok, 99⟩
        ⟨[(str "k", 9)], [], 0, 0, 0⟩ ⟨str "b", str "k", str "p", false⟩ =
      .ok ⟨[(str "k", 9)], [.getKey (str "k")], 0, 1, 0⟩ :=
  c3_skip_amended ⟨false, false, false, false⟩ ⟨fun _ => ⟨3, 10, none⟩, fun _ => .ok, 99⟩
    ⟨[(str "k", 9)], [], 0, 0, 0⟩ ⟨str "b", str "k", str "p", false⟩ 9
    rfl (by decide) (by decide)

/-- C4 counterexample: a non-object-store error on the first job terminates
the worker: with two upload jobs queued and the store raising an
unexpected error on the first write, the run ends crashed with the second
job still unprocessed, so the error does prevent the worker from draining
the rest of the queue. -/
theorem c4_unexpected_error_counterexample :
    run_worker ⟨false, false, true, false⟩
        ⟨fun _ => ⟨0, 10, none⟩, fun _ => .otherError, 0⟩
        ⟨[], [], 0, 0, 0⟩
        [⟨str "b", str "k1", str "p1", false⟩, ⟨str "b", str "k2", str "p2", false⟩] =
      .crashed ⟨[], [.putObject (str "k1") ⟨none, none, false⟩], 0, 0, 0⟩
        [⟨str "b", str "k2", str "p2", false⟩] ∧
    ([(⟨str "b", str "k2", str "p2", false⟩ : S3File)] : List S3File) ≠ [] :=
  ⟨by decide, by decide⟩

/-- C4 (amended): an object-store error (the caught S3CreateError) during a
write is logged and absorbed: the job returns normally with the upload
counter not incremented (both on the primary write and on the gzip-variant
write), and after any normally returning job the worker proceeds to the
remaining jobs; an unexpected non-object-store error is reported and
re-raised, terminating the worker with the rest of the queue unprocessed. -/
theorem c4_error_isolation_amended (cfg : WorkerCfg) (w : World) :
    (∀ (s : WorkerState) (fk : Str) (ct : Option Str) (n : Nat) (hd : Headers),
        cfg.dry_run = false → w.putOutcome fk = .s3CreateError →
        upload_try cfg w s fk ct n hd =
          .ok { s with trace := s.trace ++ [.putObject fk hd] }) ∧
    (∀ (s : WorkerState) (fk : Str) (ct : Option Str) (n : Nat) (hd : Headers),
        cfg.dry_run = false → cfg.do_gzip = true → w.putOutcome fk = .ok →
        1024 < n → isGzType ct = true →
        w.putOutcome (gz_file_key fk) = .s3CreateError →
        upload_try cfg w s fk ct n hd =
          .ok { s with store := storePut s.store fk w.serverTime,
                       trace := s.trace ++
                         [.putObject fk hd, .makePublic fk,
                          .putObject (gz_file_key fk)
                            { hd with contentEncoding := some (str "gzip") }] }) ∧
    (∀ (s : WorkerState) (f : S3File) (rest : List S3File) (s1 : WorkerState),
        f.do_delete = false → upload_s3 cfg w s f = .ok s1 →
        run_worker cfg w s (f :: rest) = run_worker cfg w s1 rest) ∧
    (∀ (s : WorkerState) (f : S3File) (rest : List S3File) (s1 : WorkerState),
        f.do_delete = false → upload_s3 cfg w s f = .crashed s1 →
        run_worker cfg w s (f :: rest) = .crashed s1 rest) := by
  refine ⟨?_, ?_, ?_, ?_⟩
  · intro s fk ct n hd hdry hput
    exact upload_try_s3error cfg w s fk ct n hd hdry hput
  · intro s fk ct n hd hdry hgzip hput hn hct hgz
    exact upload_try_gz_s3error cfg w s fk ct n hd hdry hgzip hput hn hct hgz
  · intro s f rest s1 hdel hok
    rw [run_worker_cons_upload cfg w s f rest hdel, hok]
  · intro s f rest s1 hdel hcr
    rw [run_worker_cons_upload cfg w s f rest hdel, hcr]

/-- C4 witness: a caught object-store write error at concrete inputs leaves
the upload counter at zero and returns normally. -/
theorem c4_error_isolation_witness :
    upload_try ⟨false, false, true, false⟩
        ⟨fun _ => ⟨0, 10, none⟩, fun _ => .s3CreateError, 0⟩
        ⟨[], [], 0, 0, 0⟩ (str "k") none 10 ⟨none, none, false⟩ =
      .ok ⟨[], [.putObject (str "k") ⟨none, none, false⟩], 0, 0, 0⟩ :=
  (c4_error_isolation_amended ⟨false, false, true, false⟩
      ⟨fun _ => ⟨0, 10, none⟩, fun _ => .s3CreateError, 0⟩).1
    ⟨[], [], 0, 0, 0⟩ (str "k") none 10 ⟨none, none, false⟩ rfl rfl

/-- C5: with gzip enabled, not dry-run, and a whitelisted content type, an
upload whose byte length is at most 1024 writes only the primary object
(no gzip variant, and no error); one whose byte length exceeds 1024
additionally writes the object at the gz-inserted key with a gzip
Content-Encoding header and makes it public. Stated with force set so the
write block is reached unconditionally. -/
theorem c5_gzip_threshold (cfg : WorkerCfg) (w : World) (s : WorkerState) (f : S3File)
    (hg : cfg.do_gzip = true) (hdry : cfg.dry_run = false) (hf : cfg.do_force = true)
    (hct : isGzType (w.fileOf f.filename).contentType = true)
    (hput : w.putOutcome f.file_key = .ok) :
    ((w.fileOf f.filename).size ≤ 1024 →
      (upload_s3 cfg w s f).state.trace = s.trace ++
        [.putObject f.file_key ⟨(w.fileOf f.filename).contentType, none, cfg.do_expires⟩,
         .makePublic f.file_key]) ∧
    (1024 < (w.fileOf f.filename).size → w.putOutcome (gz_file_key f.file_key) = .ok →
      (upload_s3 cfg w s f).state.trace = s.trace ++
        [.putObject f.file_key ⟨(w.fileOf f.filename).contentType, none, cfg.do_expires⟩,
         .makePublic f.file_key,
         .putObject (gz_file_key f.file_key)
           ⟨(w.fileOf f.filename).contentType, some (str "gzip"), cfg.do_expires⟩,
         .makePublic (gz_file_key f.file_key)]) := by
  rw [upload_s3_force cfg w s f hf]
  constructor
  · intro hsize
    simp [upload_try, hdry, hput, hg, Nat.not_lt.mpr hsize, StepResult.state]
  · intro hsize hgz
    simp [upload_try, hdry, hput, hg, hsize, hct, hgz, StepResult.state]

/-- C5 witness: a 2000-byte stylesheet gets both the primary write and the
gzip-variant write under the transformed key. -/
theorem c5_gzip_threshold_witness :
    (upload_s3 ⟨true, false, true, false⟩
        ⟨fun _ => ⟨5, 2000, some (str "text/css")⟩, fun _ => .ok, 77⟩
        ⟨[], [], 0, 0, 0⟩ ⟨str "b", str "a.css", str "p.css", false⟩).state.trace =
      [] ++
        [.putObject (str "a.css") ⟨some (str "text/css"), none, false⟩,
         .makePublic (str "a.css"),
         .putObject (gz_file_key (str "a.css")) ⟨some (str "text/css"), some (str "gzip"), false⟩,
         .makePublic (gz_file_key (str "a.css"))] :=
  (c5_gzip_threshold ⟨true, false, true, false⟩
      ⟨fun _ => ⟨5, 2000, some (str "text/css")⟩, fun _ => .ok, 77⟩
      ⟨[], [], 0, 0, 0⟩ ⟨str "b", str "a.css", str "p.css", false⟩
      rfl rfl rfl (by decide) rfl).2 (by decide) rfl

/-- C6: for every Delete job executed outside dry-run, after delete_s3
neither the primary key nor its gzip-variant key remains in the store, the
delete counter is incremented exactly once, the primary delete is issued,
and when the gzip variant existed a delete is issued for it as well. -/
theorem c6_delete_cleanup (cfg : WorkerCfg) (s : WorkerState) (f : S3File)
    (hdry : cfg.dry_run = false) :
    storeGet (delete_s3 cfg s f).store f.file_key = none ∧
    storeGet (delete_s3 cfg s f).store (gz_file_key f.file_key) = none ∧
    (delete_s3 cfg s f).delete_count = s.delete_count + 1 ∧
    StoreAction.deleteKey f.file_key ∈ (delete_s3 cfg s f).trace ∧
    ((storeGet (storeDelete s.store f.file_key) (gz_file_key f.file_key)).isSome = true →
      StoreAction.deleteKey (gz_file_key f.file_key) ∈ (delete_s3 cfg s f).trace) := by
  by_cases hgz : (storeGet (storeDelete s.store f.file_key) (gz_file_key f.file_key)).isSome = true
  · have hstate : delete_s3 cfg s f =
        { store := storeDelete (storeDelete s.store f.file_key) (gz_file_key f.file_key),
          trace := s.trace ++ [.deleteKey f.file_key] ++ [.getKey (gz_file_key f.file_key)] ++
            [.deleteKey (gz_file_key f.file_key)],
          upload_count := s.upload_count, skip_count := s.skip_count,
          delete_count := s.delete_count + 1 } := by
      simp only [delete_s3, hdry, Bool.false_eq_true, if_false, hgz, if_true]
    rw [hstate]
    refine ⟨?_, ?_, rfl, ?_, fun _ => ?_⟩
    · rw [storeGet_storeDelete]
      split
      · rfl
      · rw [storeGet_storeDelete, if_pos rfl]
    · rw [storeGet_storeDelete, if_pos rfl]
    · simp
    · simp
  · have hgzn : storeGet (storeDelete s.store f.file_key) (gz_file_key f.file_key) = none := by
      cases hh : storeGet (storeDelete s.store f.file_key) (gz_file_key f.file_key) with
      | none => rfl
      | some v => rw [hh] at hgz; simp at hgz
    have hstate : delete_s3 cfg s f =
        { store := storeDelete s.store f.file_key,
          trace := s.trace ++ [.deleteKey f.file_key] ++ [.getKey (gz_file_key f.file_key)],
          upload_count := s.upload_count, skip_count := s.skip_count,
          delete_count := s.delete_count + 1 } := by
      simp only [delete_s3, hdry, Bool.false_eq_true, if_false, hgzn, Option.isSome_none]
    rw [hstate]
    refine ⟨?_, ?_, rfl, ?_, fun hcon => absurd hcon hgz⟩
    · rw [storeGet_storeDelete, if_pos rfl]
    · exact hgzn
    · simp

/-- C6 witness: deleting a key whose gzip variant is present removes the
variant as well. -/
theorem c6_delete_cleanup_witness :
    storeGet (delete_s3 ⟨false, false, false, false⟩
        ⟨[(str "x.js", 1), (str "x.gz.js", 2)], [], 0, 0, 0⟩
        ⟨str "b", str "x.js", str "p", true⟩).store (gz_file_key (str "x.js")) = none :=
  (c6_delete_cleanup ⟨false, false, false, false⟩
      ⟨[(str "x.js", 1), (str "x.gz.js", 2)], [], 0, 0, 0⟩
      ⟨str "b", str "x.js", str "p", true⟩ rfl).2.1

/-- C9 counterexample: a dry-run upload job with force unset still issues a
metadata read to the store (the get_key timestamp probe is not guarded by
the dry-run flag), so the claim that no put, delete, or metadata call is
made on behalf of a job in dry-run is false. -/
theorem c9_dryrun_metadata_counterexample :
    (upload_s3 ⟨false, false, false, true⟩ ⟨fun _ => ⟨3, 10, none⟩, fun _ => .ok, 0⟩
        ⟨[(str "k", 9)], [], 0, 0, 0⟩ ⟨str "b", str "k", str "p", false⟩).state.trace =
      [.getKey (str "k")] ∧
    ([StoreAction.getKey (str "k")] : List StoreAction) ≠ [] :=
  ⟨by decide, by decide⟩

/-- C9 (amended): in dry-run mode no write reaches the object store on
behalf of any job: every store call an upload job adds to the trace is a
metadata read, a delete job only increments its counter, a whole run
leaves the store content unchanged and adds only metadata reads to the
trace, and the checkpoint write is suppressed. -/
theorem c9_dryrun_amended (cfg : WorkerCfg) (w : World) (hdry : cfg.dry_run = true) :
    (∀ (s : WorkerState) (f : S3File),
        (upload_s3 cfg w s f).state.store = s.store ∧
        ∀ a ∈ (upload_s3 cfg w s f).state.trace, isGetKey a = true ∨ a ∈ s.trace) ∧
    (∀ (s : WorkerState) (f : S3File),
        delete_s3 cfg s f = { s with delete_count := s.delete_count + 1 }) ∧
    (∀ (s : WorkerState) (jobs : List S3File),
        (run_worker cfg w s jobs).state.store = s.store ∧
        ∀ a ∈ (run_worker cfg w s jobs).state.trace, isGetKey a = true ∨ a ∈ s.trace) ∧
    (∀ conf : SvnRevisionConf, set_s3_revision cfg.dry_run conf = []) := by
  refine ⟨?_, ?_, ?_, ?_⟩
  · intro s f
    obtain ⟨s1, hup, hst, htr⟩ := upload_s3_dry cfg w s f hdry
    rw [hup]
    simp only [StepResult.state]
    refine ⟨hst, fun a ha => ?_⟩
    rcases htr with he | he
    · exact Or.inr (he ▸ ha)
    · rw [he] at ha
      rcases List.mem_append.mp ha with hm | hm
      · exact Or.inr hm
      · simp only [List.mem_singleton] at hm
        subst hm
        exact Or.inl rfl
  · intro s f
    exact delete_s3_dry cfg s f hdry
  · intro s jobs
    exact run_worker_dry cfg w hdry jobs s
  · intro conf
    simp [set_s3_revision, hdry]

/-- C9 witness: the amended theorem at a concrete dry-run configuration; in
particular the checkpoint write list is empty. -/
theorem c9_dryrun_amended_witness :
    set_s3_revision (WorkerCfg.dry_run ⟨false, false, false, true⟩) default_s3_revision = [] :=
  (c9_dryrun_amended ⟨false, false, false, true⟩
      ⟨fun _ => ⟨0, 0, none⟩, fun _ => .ok, 0⟩ rfl).2.2.2 default_s3_revision

/-- C10: the svn-sync command constructs every worker with the constant
force flag set (the literal True in its process_args tuple), so for every
upload job the remote-timestamp probe is never issued, the skip counter is
unchanged, the primary write is always attempted outside dry-run, and a
whole run leaves the skip counter at its initial value. -/
theorem c10_svnsync_force (cfg : WorkerCfg) (w : World) (hf : cfg.do_force = svnsync_force) :
    (∀ (s : WorkerState) (f : S3File),
        (upload_s3 cfg w s f).state.skip_count = s.skip_count) ∧
    (∀ (s : WorkerState) (f : S3File) (k : Str),
        StoreAction.getKey k ∈ (upload_s3 cfg w s f).state.trace →
        StoreAction.getKey k ∈ s.trace) ∧
    (∀ (s : WorkerState) (f : S3File), cfg.dry_run = false →
        StoreAction.putObject f.file_key
            ⟨(w.fileOf f.filename).contentType, none, cfg.do_expires⟩ ∈
          (upload_s3 cfg w s f).state.trace) ∧
    (∀ (s : WorkerState) (jobs : List S3File),
        (run_worker cfg w s jobs).state.skip_count = s.skip_count) := by
  have hft : cfg.do_force = true := hf
  refine ⟨?_, ?_, ?_, ?_⟩
  · intro s f
    exact upload_s3_skip_count_force cfg w s f hft
  · intro s f k h
    rw [upload_s3_force cfg w s f hft] at h
    exact upload_try_no_getKey cfg w s _ _ _ _ k h
  · intro s f hdry
    rw [upload_s3_force cfg w s f hft]
    exact upload_try_put_mem cfg w s _ _ _ _ hdry
  · intro s jobs
    exact run_worker_skip_count cfg w hft jobs s

/-- C10 witness: with force set, a file whose remote copy is far newer is
still not skipped. -/
theorem c10_svnsync_force_witness :
    (upload_s3 ⟨false, false, true, false⟩ ⟨fun _ => ⟨0, 10, none⟩, fun _ => .ok, 0⟩
        ⟨[(str "k", 999)], [], 0, 0, 0⟩ ⟨str "b", str "k", str "p", false⟩).state.skip_count = 0 :=
  (c10_svnsync_force ⟨false, false, true, false⟩
      ⟨fun _ => ⟨0, 10, none⟩, fun _ => .ok, 0⟩ rfl).1 ⟨[(str "k", 999)], [], 0, 0, 0⟩
    ⟨str "b", str "k", str "p", false⟩

/-! Arithmetic and ordering lemmas for the coordinator phase. -/

theorem natAbs_sum_eq_zero_iff (l : List Int) :
    (l.map Int.natAbs).sum = 0 ↔ ∀ e ∈ l, e = 0 := by
  induction l with
  | nil => simp
  | cons a t ih => simp [ih, Int.natAbs_eq_zero]

theorem getLast_le_of_pairwise :
    ∀ (l : List LogEntry) (h : l ≠ []),
      List.Pairwise (fun a b => b.revision ≤ a.revision) l →
      ∀ e ∈ l, (l.getLast h).revision ≤ e.revision := by
  intro l
  induction l with
  | nil => intro h; exact absurd rfl h
  | cons a t ih =>
    intro h hp e he
    cases t with
    | nil =>
      simp only [List.mem_singleton] at he
      subst he
      exact le_refl _
    | cons b t2 =>
      rw [List.getLast_cons (List.cons_ne_nil b t2)]
      rcases List.mem_cons.mp he with rfl | he2
      · have hmem : (b :: t2).getLast (List.cons_ne_nil b t2) ∈ b :: t2 :=
          List.getLast_mem (List.cons_ne_nil b t2)
        exact (List.pairwise_cons.mp hp).1 _ hmem
      · exact ih (List.cons_ne_nil b t2) (List.pairwise_cons.mp hp).2 e he2

/-- C2: if at least one file of the computed change set has a first reported
working-copy status other than normal, the run aborts before dispatch: the
outcome is the abort constructor carrying the offending list (which
contains the file), the exit code is the distinct non-zero code 1, no job
is queued, no worker is spawned, and running any worker over the queued
jobs performs no store action at all. -/
theorem c2_out_of_sync_abort (statusOf : Str → List FileStatus) (changed_files : List S3File)
    (f : S3File) (fs : FileStatus) (tl : List FileStatus)
    (hmem : f ∈ changed_files) (hst : statusOf f.filename = fs :: tl)
    (hns : fs.text_status ≠ .normal) :
    dispatch statusOf changed_files =
      .abort_out_of_sync (out_of_sync_files statusOf changed_files) ∧
    (f, fs) ∈ out_of_sync_files statusOf changed_files ∧
    (dispatch statusOf changed_files).exit_code = some 1 ∧
    (1 : Nat) ≠ 0 ∧
    (dispatch statusOf changed_files).queued_jobs = [] ∧
    (∀ n, (dispatch statusOf changed_files).workers_spawned n = 0) ∧
    (∀ (cfg : WorkerCfg) (w : World) (s : WorkerState),
        run_worker cfg w s ((dispatch statusOf changed_files).queued_jobs) = .finished s) := by
  have hoosmem : (f, fs) ∈ out_of_sync_files statusOf changed_files := by
    unfold out_of_sync_files
    rw [List.mem_filterMap]
    exact ⟨f, hmem, by rw [hst]; simp [hns]⟩
  have hoos : out_of_sync_files statusOf changed_files ≠ [] :=
    List.ne_nil_of_mem hoosmem
  have hdisp : dispatch statusOf changed_files =
      .abort_out_of_sync (out_of_sync_files statusOf changed_files) := by
    simp only [dispatch]
    rw [if_neg hoos]
  refine ⟨hdisp, hoosmem, ?_, ?_, ?_, ?_, ?_⟩
  · rw [hdisp]; rfl
  · decide
  · rw [hdisp]; rfl
  · intro n; rw [hdisp]; rfl
  · intro cfg w s; rw [hdisp]; rfl

/-- C2 witness: one changed file with modified status aborts the dispatch. -/
theorem c2_out_of_sync_abort_witness :
    dispatch (fun _ => [⟨WcStatusKind.modified⟩]) [⟨str "b", str "k", str "p", false⟩] =
      .abort_out_of_sync (out_of_sync_files (fun _ => [⟨WcStatusKind.modified⟩])
        [⟨str "b", str "k", str "p", false⟩]) :=
  (c2_out_of_sync_abort (fun _ => [⟨WcStatusKind.modified⟩])
      [⟨str "b", str "k", str "p", false⟩] ⟨str "b", str "k", str "p", false⟩
      ⟨WcStatusKind.modified⟩ [] (by decide) rfl (by decide)).1

/-- C7: with an uninitialized checkpoint (the INITIAL_REVISION sentinel) and
a nonempty svn log ordered newest-first, the resolved effective from
revision is the earliest revision recorded in the history (it is the
revision of some entry and a lower bound for all entries), and the diff is
taken from that revision through the current revision. -/
theorem c7_genesis_sync (history : List LogEntry) (current_rev : Int)
    (hne : history ≠ [])
    (hsorted : List.Pairwise (fun a b => b.revision ≤ a.revision) history) :
    ∃ m : Int,
      resolve_from_revision INITIAL_REVISION history = some m ∧
      (∃ e ∈ history, e.revision = m) ∧
      (∀ e ∈ history, m ≤ e.revision) ∧
      diff_range INITIAL_REVISION history current_rev = some (m, current_rev) := by
  refine ⟨(history.getLast hne).revision, ?_, ?_, ?_, ?_⟩
  · simp [resolve_from_revision, List.getLast?_eq_getLast history hne]
  · exact ⟨history.getLast hne, List.getLast_mem hne, rfl⟩
  · exact getLast_le_of_pairwise history hne hsorted
  · simp [diff_range, resolve_from_revision, List.getLast?_eq_getLast history hne]

/-- C7 witness: a three-entry newest-first history resolves to its earliest
revision 2 and the diff range runs from 2 to the current revision 9. -/
theorem c7_genesis_sync_witness :
    ∃ m : Int,
      resolve_from_revision INITIAL_REVISION [⟨5⟩, ⟨3⟩, ⟨2⟩] = some m ∧
      (∃ e ∈ ([⟨5⟩, ⟨3⟩, ⟨2⟩] : List LogEntry), e.revision = m) ∧
      (∀ e ∈ ([⟨5⟩, ⟨3⟩, ⟨2⟩] : List LogEntry), m ≤ e.revision) ∧
      diff_range INITIAL_REVISION [⟨5⟩, ⟨3⟩, ⟨2⟩] 9 = some (m, 9) :=
  c7_genesis_sync [⟨5⟩, ⟨3⟩, ⟨2⟩] 9 (by decide) (by decide)

/-- C1 counterexample: in a dry run whose workers all exit clean, the
coordinator performs no checkpoint write at all, where the claim requires
exactly one write carrying the new revision; so the success clause of the
claim fails on dry runs. -/
theorem c1_dryrun_counterexample :
    (finish_run true [0, 0] default_s3_revision 7 42).1 = [] ∧
    (finish_run true [0, 0] default_s3_revision 7 42).2 = none ∧
    ([] : List SvnRevisionConf) ≠
      [{ default_s3_revision with revision := 7, last_update := some 42 }] :=
  ⟨by decide, by decide, by decide⟩

/-- C1 (amended): for every run, if any worker terminates with a non-zero
exit status then no checkpoint write is performed (so the persisted
revision is unchanged) and the process exits with the sum of the absolute
worker exit codes, which is non-zero; if every worker exits clean and
dry-run is not set, the checkpoint is written exactly once, carrying the
local revision captured at diff time and the current time, and the run
completes normally. -/
theorem c1_checkpoint_advance_amended (dryrun : Bool) (exitcodes : List Int)
    (conf : SvnRevisionConf) (localRev : Int) (now : Nat)
    (stored : Option SvnRevisionConf) :
    ((∃ e ∈ exitcodes, e ≠ 0) →
      (finish_run dryrun exitcodes conf localRev now).1 = [] ∧
      apply_writes stored (finish_run dryrun exitcodes conf localRev now).1 = stored ∧
      (finish_run dryrun exitcodes conf localRev now).2 =
        some ((exitcodes.map Int.natAbs).sum) ∧
      (exitcodes.map Int.natAbs).sum ≠ 0) ∧
    ((∀ e ∈ exitcodes, e = 0) → dryrun = false →
      (finish_run dryrun exitcodes conf localRev now).1 =
        [{ conf with revision := localRev, last_update := some now }] ∧
      (finish_run dryrun exitcodes conf localRev now).2 = none) := by
  constructor
  · rintro ⟨e, he, hne⟩
    have hsum : (exitcodes.map Int.natAbs).sum ≠ 0 := by
      intro h0
      exact hne ((natAbs_sum_eq_zero_iff exitcodes).mp h0 e he)
    refine ⟨?_, ?_, ?_, hsum⟩ <;> simp [finish_run, hsum, apply_writes]
  · intro hall hdry
    have hsum : (exitcodes.map Int.natAbs).sum = 0 := (natAbs_sum_eq_zero_iff exitcodes).mpr hall
    constructor <;> simp [finish_run, hsum, set_s3_revision, hdry]

/-- C1 witness: one worker exit code 2 blocks the commit, leaves the stored
checkpoint unchanged and exits with 2. -/
theorem c1_checkpoint_advance_witness :
    (finish_run false [2, 0] default_s3_revision 7 42).1 = [] ∧
    apply_writes (some default_s3_revision)
        (finish_run false [2, 0] default_s3_revision 7 42).1 = some default_s3_revision ∧
    (finish_run false [2, 0] default_s3_revision 7 42).2 =
      some ((([2, 0] : List Int).map Int.natAbs).sum) ∧
    ((([2, 0] : List Int).map Int.natAbs).sum) ≠ 0 :=
  (c1_checkpoint_advance_amended false [2, 0] default_s3_revision 7 42
      (some default_s3_revision)).1 ⟨2, by decide, by decide⟩

end Pamazons3
